import Mathlib

/-!
Shallow embedding of `src/keys/store.rs` from the aries-askar repository:
the store-key encryption layer combining searchable (deterministic-nonce)
and non-searchable (random-nonce) authenticated encryption, the value
envelope wrapper, the record/tag encryption orchestration, and the key
bundle serialization.

Modelling conventions:
* Bytes are `List (Fin 256)`.
* The ChaCha20Poly1305 cipher and HMAC-SHA256 come from external crates
  (`chacha20poly1305`, `hmac`/`sha2`); they are embedded as abstract
  structures (`AEADCipher`, `HmacSha256`) carrying exactly the interface
  contract the source relies on: ciphertext = body ++ tag with
  `|body| = |plaintext|`, `|tag| = TAG_SIZE`, a 32-byte MAC output, and
  decryption inverting encryption.  All store-level theorems are proved
  for every such cipher; a small concrete instance (`demoCipher`,
  `demoHmac`) makes the statements executable on concrete inputs.
* Randomness (`random_array`, `ArrayKey::random`) is passed explicitly:
  random nonces and the per-value key are parameters of the functions
  that consume them in the source.
* Rust `String` is modelled as a byte list that passes UTF-8 validation
  (`RString`), matching Rust's representation of `String` as valid UTF-8
  bytes; `String::from_utf8` is the validation test.
* Fallible operations return `Except Err`, with `Err.kind` mirroring the
  error kinds raised by `err_msg!` / `err_map!` in the source
  (`Encryption`, `Unexpected`, `Unsupported`).
-/

namespace AskarStore

abbrev Byte := Fin 256

abbrev Bytes := List Byte

/-- `<ChaCha20Poly1305 as Aead>::NonceSize::USIZE` (96-bit nonce). -/
def NONCE_SIZE : Nat := 12

/-- `<ChaCha20Poly1305 as Aead>::TagSize::USIZE` (128-bit Poly1305 tag). -/
def TAG_SIZE : Nat := 16

/-- `ENC_KEY_BYTES = <ChaCha20Poly1305 as NewAead>::KeySize::USIZE` (256-bit key). -/
def ENC_KEY_BYTES : Nat := 32

/-- `ENC_KEY_SIZE = NonceSize + ENC_KEY_BYTES + TagSize` from the source. -/
def ENC_KEY_SIZE : Nat := NONCE_SIZE + ENC_KEY_BYTES + TAG_SIZE

/-- Error kinds raised by this module (`err_msg!` / `err_map!` in the source). -/
inductive ErrorKind where
  | Encryption
  | Unexpected
  | Unsupported
  deriving DecidableEq, Repr

/-- A raised error: kind plus message, as produced by `err_msg!(Kind, "...")`. -/
structure Err where
  kind : ErrorKind
  msg : String
  deriving DecidableEq, Repr

/-- Abstract interface of the external ChaCha20Poly1305 AEAD cipher
(`chacha20poly1305` crate).  `encBody k n p` is the encrypted payload
(same length as the plaintext, produced by the ChaCha20 keystream XOR)
and `tagOf k n p` the Poly1305 authentication tag; the crate's
`encrypt` returns their concatenation.  `decrypt` inverts `encrypt`
and returns `none` when the tag does not verify. -/
structure AEADCipher where
  encBody : Bytes → Bytes → Bytes → Bytes
  tagOf : Bytes → Bytes → Bytes → Bytes
  decrypt : Bytes → Bytes → Bytes → Option Bytes
  body_length : ∀ k n p, (encBody k n p).length = p.length
  tag_length : ∀ k n p, (tagOf k n p).length = TAG_SIZE
  decrypt_encrypt : ∀ k n p, decrypt k n (encBody k n p ++ tagOf k n p) = some p

/-- The crate's `Aead::encrypt`: encrypted payload followed by the tag. -/
def AEADCipher.encrypt (C : AEADCipher) (k n p : Bytes) : Bytes :=
  C.encBody k n p ++ C.tagOf k n p

/-- Abstract interface of `Hmac::<Sha256>` from the external `hmac` crate:
a deterministic keyed MAC with a 32-byte (SHA-256) output. -/
structure HmacSha256 where
  mac : Bytes → Bytes → Bytes
  mac_length : ∀ k m, (mac k m).length = 32

/-- `StoreKey`: the bundle of seven independent keys.  `ArrayKey<U32>` is a
fixed 32-byte array; the fixed length is tracked by `StoreKey.wf`. -/
structure StoreKey where
  category_key : Bytes
  name_key : Bytes
  value_key : Bytes
  item_hmac_key : Bytes
  tag_name_key : Bytes
  tag_value_key : Bytes
  tags_hmac_key : Bytes
  deriving DecidableEq, Repr

/-- Every key of the bundle is a 32-byte `ArrayKey<U32>`. -/
def StoreKey.wf (key : StoreKey) : Prop :=
  key.category_key.length = 32 ∧ key.name_key.length = 32 ∧
  key.value_key.length = 32 ∧ key.item_hmac_key.length = 32 ∧
  key.tag_name_key.length = 32 ∧ key.tag_value_key.length = 32 ∧
  key.tags_hmac_key.length = 32

instance (key : StoreKey) : Decidable key.wf := by
  unfold StoreKey.wf; infer_instance

/-- `encrypt_searchable`: derive the nonce deterministically as the first
`NONCE_SIZE` bytes of `HMAC-SHA256(hmac_key, input)`, AEAD-encrypt under
that nonce, and return `nonce ++ ciphertext`. -/
def encrypt_searchable (C : AEADCipher) (H : HmacSha256)
    (enc_key hmac_key input : Bytes) : Bytes :=
  let nonce := (H.mac hmac_key input).take NONCE_SIZE
  nonce ++ C.encrypt enc_key nonce input

/-- `encrypt_non_searchable`: the random nonce produced by `random_array()`
is passed explicitly as `nonce`; returns `nonce ++ ciphertext`. -/
def encrypt_non_searchable (C : AEADCipher)
    (enc_key nonce input : Bytes) : Bytes :=
  nonce ++ C.encrypt enc_key nonce input

/-- The shared `decrypt` routine: length-guard, split off the nonce prefix,
AEAD-decrypt the remainder. -/
def decrypt (C : AEADCipher) (enc_key input : Bytes) : Except Err Bytes :=
  if input.length < NONCE_SIZE + TAG_SIZE then
    .error ⟨.Encryption, "Invalid length for encrypted buffer"⟩
  else
    match C.decrypt enc_key (input.take NONCE_SIZE) (input.drop NONCE_SIZE) with
    | some pt => .ok pt
    | none => .error ⟨.Encryption, "Error decrypting record"⟩

/-- `StoreKey::encrypt_category`. -/
def StoreKey.encrypt_category (C : AEADCipher) (H : HmacSha256)
    (key : StoreKey) (category : Bytes) : Bytes :=
  encrypt_searchable C H key.category_key key.item_hmac_key category

/-- `StoreKey::encrypt_name`. -/
def StoreKey.encrypt_name (C : AEADCipher) (H : HmacSha256)
    (key : StoreKey) (name : Bytes) : Bytes :=
  encrypt_searchable C H key.name_key key.item_hmac_key name

/-- `StoreKey::encrypt_value`: the fresh random 32-byte per-value key and
the two random nonces consumed by the two `encrypt_non_searchable` calls
are explicit parameters.  Output is `wrapped_key ++ wrapped_value`. -/
def StoreKey.encrypt_value (C : AEADCipher) (key : StoreKey)
    (value_key key_nonce value_nonce value : Bytes) : Bytes :=
  encrypt_non_searchable C key.value_key key_nonce value_key ++
    encrypt_non_searchable C value_key value_nonce value

/-- `StoreKey::encrypt_tag_name`. -/
def StoreKey.encrypt_tag_name (C : AEADCipher) (H : HmacSha256)
    (key : StoreKey) (name : Bytes) : Bytes :=
  encrypt_searchable C H key.tag_name_key key.tags_hmac_key name

/-- `StoreKey::encrypt_tag_value`. -/
def StoreKey.encrypt_tag_value (C : AEADCipher) (H : HmacSha256)
    (key : StoreKey) (value : Bytes) : Bytes :=
  encrypt_searchable C H key.tag_value_key key.tags_hmac_key value

/-- `StoreKey::decrypt_category`. -/
def StoreKey.decrypt_category (C : AEADCipher) (key : StoreKey)
    (enc_category : Bytes) : Except Err Bytes :=
  decrypt C key.category_key enc_category

/-- `StoreKey::decrypt_name`. -/
def StoreKey.decrypt_name (C : AEADCipher) (key : StoreKey)
    (enc_name : Bytes) : Except Err Bytes :=
  decrypt C key.name_key enc_name

/-- `StoreKey::decrypt_value`: length-guard at `ENC_KEY_SIZE + TAG_SIZE`,
split at offset `ENC_KEY_SIZE`, unwrap the per-value key with
`value_key`, then decrypt the remainder with the recovered key. -/
def StoreKey.decrypt_value (C : AEADCipher) (key : StoreKey)
    (enc_value : Bytes) : Except Err Bytes :=
  if enc_value.length < ENC_KEY_SIZE + TAG_SIZE then
    .error ⟨.Encryption, "Buffer is too short to represent an encrypted value"⟩
  else
    match decrypt C key.value_key (enc_value.take ENC_KEY_SIZE) with
    | .error e => .error e
    | .ok value_key => decrypt C value_key (enc_value.drop ENC_KEY_SIZE)

/-- `StoreKey::decrypt_tag_name`. -/
def StoreKey.decrypt_tag_name (C : AEADCipher) (key : StoreKey)
    (enc_tag_name : Bytes) : Except Err Bytes :=
  decrypt C key.tag_name_key enc_tag_name

/-- `StoreKey::decrypt_tag_value`. -/
def StoreKey.decrypt_tag_value (C : AEADCipher) (key : StoreKey)
    (enc_tag_value : Bytes) : Except Err Bytes :=
  decrypt C key.tag_value_key enc_tag_value

/-- A UTF-8 continuation byte: `0x80..0xBF`. -/
def contByte (b : Byte) : Bool := 0x80 ≤ b.val && b.val < 0xC0

/-- UTF-8 validity of a byte sequence (RFC 3629, as enforced by Rust's
`String::from_utf8`): rejects overlong encodings, surrogates
(`0xED 0xA0..` and above) and code points beyond `U+10FFFF`. -/
def utf8Valid : Bytes → Bool
  | [] => true
  | b :: rest =>
    if b.val < 0x80 then utf8Valid rest
    else if b.val < 0xC2 then false
    else if b.val < 0xE0 then
      match rest with
      | b1 :: rest1 => contByte b1 && utf8Valid rest1
      | [] => false
    else if b.val < 0xF0 then
      match rest with
      | b1 :: b2 :: rest2 =>
        (if b.val = 0xE0 then 0xA0 ≤ b1.val && b1.val < 0xC0
         else if b.val = 0xED then 0x80 ≤ b1.val && b1.val < 0xA0
         else contByte b1) && contByte b2 && utf8Valid rest2
      | _ => false
    else if b.val < 0xF5 then
      match rest with
      | b1 :: b2 :: b3 :: rest3 =>
        (if b.val = 0xF0 then 0x90 ≤ b1.val && b1.val < 0xC0
         else if b.val = 0xF4 then 0x80 ≤ b1.val && b1.val < 0x90
         else contByte b1) && contByte b2 && contByte b3 && utf8Valid rest3
      | _ => false
    else false

/-- Model of Rust `String`: a byte sequence that is valid UTF-8. -/
abbrev RString := { bs : Bytes // utf8Valid bs = true }

/-- `decode_utf8`: `String::from_utf8` with a failure mapped by
`err_map!(Encryption)` to the `Encryption` error kind. -/
def decode_utf8 (value : Bytes) : Except Err RString :=
  if h : utf8Valid value = true then .ok ⟨value, h⟩
  else .error ⟨.Encryption, "invalid utf-8 sequence"⟩

/-- `EntryTag` from `crate::types`: the tagged union of plaintext and
encrypted tags. -/
inductive EntryTag where
  | Plaintext (name value : RString)
  | Encrypted (name value : RString)
  deriving DecidableEq

/-- `EncEntryTag` from `crate::types`: encrypted name bytes, value bytes
(raw or encrypted), and the `plaintext` discriminator. -/
structure EncEntryTag where
  name : Bytes
  value : Bytes
  plaintext : Bool
  deriving DecidableEq

/-- `EntryEncryptor::encrypt_entry_category` for `StoreKey`. -/
def StoreKey.encrypt_entry_category (C : AEADCipher) (H : HmacSha256)
    (key : StoreKey) (category : RString) : Bytes :=
  key.encrypt_category C H category.val

/-- `EntryEncryptor::encrypt_entry_name` for `StoreKey`. -/
def StoreKey.encrypt_entry_name (C : AEADCipher) (H : HmacSha256)
    (key : StoreKey) (name : RString) : Bytes :=
  key.encrypt_name C H name.val

/-- `EntryEncryptor::encrypt_entry_value` for `StoreKey` (randomness
explicit, as in `StoreKey.encrypt_value`). -/
def StoreKey.encrypt_entry_value (C : AEADCipher) (key : StoreKey)
    (value_key key_nonce value_nonce value : Bytes) : Bytes :=
  key.encrypt_value C value_key key_nonce value_nonce value

/-- `EntryEncryptor::encrypt_entry_tags` for `StoreKey`: a `Plaintext`
tag keeps its value as raw UTF-8 bytes with discriminator `true`; an
`Encrypted` tag has its value encrypted with discriminator `false`;
the name is encrypted (searchably) in both variants.  The source's
per-element `Result`s can only be `Ok` (the encryption path has no
failing case in the model), so the collected list is a plain `map`. -/
def StoreKey.encrypt_entry_tags (C : AEADCipher) (H : HmacSha256)
    (key : StoreKey) (tags : List EntryTag) : List EncEntryTag :=
  tags.map fun tag =>
    match tag with
    | .Plaintext name value =>
      { name := key.encrypt_tag_name C H name.val
        value := value.val
        plaintext := true }
    | .Encrypted name value =>
      { name := key.encrypt_tag_name C H name.val
        value := key.encrypt_tag_value C H value.val
        plaintext := false }

/-- `EntryEncryptor::decrypt_entry_category` for `StoreKey`. -/
def StoreKey.decrypt_entry_category (C : AEADCipher) (key : StoreKey)
    (enc_category : Bytes) : Except Err RString :=
  match key.decrypt_category C enc_category with
  | .ok bs => decode_utf8 bs
  | .error e => .error e

/-- `EntryEncryptor::decrypt_entry_name` for `StoreKey`. -/
def StoreKey.decrypt_entry_name (C : AEADCipher) (key : StoreKey)
    (enc_name : Bytes) : Except Err RString :=
  match key.decrypt_name C enc_name with
  | .ok bs => decode_utf8 bs
  | .error e => .error e

/-- `EntryEncryptor::decrypt_entry_value` for `StoreKey`. -/
def StoreKey.decrypt_entry_value (C : AEADCipher) (key : StoreKey)
    (enc_value : Bytes) : Except Err Bytes :=
  key.decrypt_value C enc_value

/-- `EntryEncryptor::decrypt_entry_tags` for `StoreKey`: the source's
`try_fold` pushes one decrypted tag per input element in order and
aborts at the first failure; this recursion has the same semantics. -/
def StoreKey.decrypt_entry_tags (C : AEADCipher) (key : StoreKey) :
    List EncEntryTag → Except Err (List EntryTag)
  | [] => .ok []
  | tag :: rest =>
    match key.decrypt_tag_name C tag.name with
    | .error e => .error e
    | .ok nameBytes =>
      match decode_utf8 nameBytes with
      | .error e => .error e
      | .ok name =>
        let decTag : Except Err EntryTag :=
          if tag.plaintext then
            match decode_utf8 tag.value with
            | .error e => .error e
            | .ok value => .ok (.Plaintext name value)
          else
            match key.decrypt_tag_value C tag.value with
            | .error e => .error e
            | .ok valueBytes =>
              match decode_utf8 valueBytes with
              | .error e => .error e
              | .ok value => .ok (.Encrypted name value)
        match decTag with
        | .error e => .error e
        | .ok t =>
          match key.decrypt_entry_tags C rest with
          | .error e => .error e
          | .ok ts => .ok (t :: ts)

/-- Modelled from the spec: `StoreKey::to_string` serializes via
`serde_json` (and the external `indy_utils::keys::ArrayKey` `Serialize`
impl, neither of which is in `src/`) into a "structured, field-tagged
encoding of seven named byte sequences" with the stable field names of
the struct.  The structured form is modelled as the list of
(field name, key bytes) pairs. -/
def StoreKey.to_text (key : StoreKey) : List (String × Bytes) :=
  [("category_key", key.category_key),
   ("name_key", key.name_key),
   ("value_key", key.value_key),
   ("item_hmac_key", key.item_hmac_key),
   ("tag_name_key", key.tag_name_key),
   ("tag_value_key", key.tag_value_key),
   ("tags_hmac_key", key.tags_hmac_key)]

/-- Modelled from the spec: `StoreKey::from_slice` parses the same
structured form via `serde_json` (not in `src/`); it "fails with a
format error on malformed input, independent of any cryptographic
failure" (`err_map!(Unsupported, "Invalid store key")`).  Malformed
means: wrong field tags, wrong shape, or a key that is not the fixed
32 bytes of an `ArrayKey<U32>`. -/
def StoreKey.from_text (fields : List (String × Bytes)) : Except Err StoreKey :=
  match fields with
  | [(t1, ck), (t2, nk), (t3, vk), (t4, ihk), (t5, tnk), (t6, tvk), (t7, thk)] =>
    if t1 = "category_key" ∧ t2 = "name_key" ∧ t3 = "value_key" ∧
        t4 = "item_hmac_key" ∧ t5 = "tag_name_key" ∧ t6 = "tag_value_key" ∧
        t7 = "tags_hmac_key" ∧ ck.length = 32 ∧ nk.length = 32 ∧
        vk.length = 32 ∧ ihk.length = 32 ∧ tnk.length = 32 ∧
        tvk.length = 32 ∧ thk.length = 32 then
      .ok ⟨ck, nk, vk, ihk, tnk, tvk, thk⟩
    else
      .error ⟨.Unsupported, "Invalid store key"⟩
  | _ => .error ⟨.Unsupported, "Invalid store key"⟩

/-! ### A concrete cipher and MAC instance

The theorems below hold for every `AEADCipher` / `HmacSha256`; this small
executable instance lets each statement be evaluated on concrete inputs.
The body is carried unchanged and the tag is sixteen copies of a checksum
mixing key, nonce and payload, so that decryption genuinely fails on a
mismatched tag. -/

/-- Checksum byte mixing key, nonce and message. -/
def demoMix (k n m : Bytes) : Byte :=
  Fin.ofNat (k.foldl (fun a b => a + b.val) 0 + 2 * n.foldl (fun a b => a + b.val) 0 +
    3 * m.foldl (fun a b => a + b.val) 0 + m.length)

/-- Demo tag: `TAG_SIZE` copies of the checksum byte. -/
def demoTag (k n m : Bytes) : Bytes := List.replicate TAG_SIZE (demoMix k n m)

/-- Demo AEAD decryption: split off the trailing tag and check it. -/
def demoDecrypt (k n c : Bytes) : Option Bytes :=
  if TAG_SIZE ≤ c.length then
    let body := c.take (c.length - TAG_SIZE)
    if c.drop (c.length - TAG_SIZE) = demoTag k n body then some body else none
  else none

/-- The concrete AEAD instance. -/
def demoCipher : AEADCipher where
  encBody _ _ p := p
  tagOf := demoTag
  decrypt := demoDecrypt
  body_length := fun _ _ _ => rfl
  tag_length := fun k n p => by simp [demoTag]
  decrypt_encrypt := fun k n p => by
    have hlen : (p ++ demoTag k n p).length = p.length + TAG_SIZE := by
      simp [demoTag, List.length_append]
    have htake : (p ++ demoTag k n p).take p.length = p :=
      List.take_left p (demoTag k n p)
    have hdrop : (p ++ demoTag k n p).drop p.length = demoTag k n p :=
      List.drop_left p (demoTag k n p)
    simp only [demoDecrypt, hlen, Nat.add_sub_cancel, htake, hdrop]
    simp

/-- The concrete MAC instance: 32 copies of the checksum byte. -/
def demoHmac : HmacSha256 where
  mac k m := List.replicate 32 (demoMix k [] m)
  mac_length := fun _ _ => by simp

/-- A concrete 32-byte key filled with one byte value. -/
def demoKeyBytes (b : Byte) : Bytes := List.replicate 32 b

/-- A concrete store key bundle. -/
def demoStoreKey : StoreKey :=
  ⟨demoKeyBytes 1, demoKeyBytes 2, demoKeyBytes 3, demoKeyBytes 4,
   demoKeyBytes 5, demoKeyBytes 6, demoKeyBytes 7⟩

/-- Concrete record fields (the bytes of "category" and "name"). -/
def demoCat : RString := ⟨[99, 97, 116, 101, 103, 111, 114, 121], by decide⟩

def demoName : RString := ⟨[110, 97, 109, 101], by decide⟩

/-- The bytes of "value". -/
def demoValue : Bytes := [118, 97, 108, 117, 101]

/-- A concrete fresh per-value key and random nonces. -/
def demoValueKey : Bytes := List.replicate 32 9

def demoKeyNonce : Bytes := List.replicate 12 10

def demoValueNonce : Bytes := List.replicate 12 11

/-- A concrete tag list with both variants. -/
def demoTagList : List EntryTag :=
  [.Plaintext demoName demoCat, .Encrypted demoCat demoName]

/-- A byte sequence that is not valid UTF-8. -/
def demoBad : Bytes := [255]

/-- Concrete inputs of particular lengths. -/
def demoInput76 : Bytes := List.replicate 76 0

def demoInput28 : Bytes := List.replicate 28 0

/-- An encrypted category whose plaintext is not valid UTF-8. -/
def demoBadCatEnc : Bytes :=
  encrypt_non_searchable demoCipher demoStoreKey.category_key demoKeyNonce demoBad

/-- An encrypted name whose plaintext is not valid UTF-8. -/
def demoBadNameEnc : Bytes :=
  encrypt_non_searchable demoCipher demoStoreKey.name_key demoKeyNonce demoBad

/-- An encrypted tag name that decrypts to valid UTF-8. -/
def demoGoodTagNameEnc : Bytes :=
  demoStoreKey.encrypt_tag_name demoCipher demoHmac demoName.val

/-- An encrypted tag value whose plaintext is not valid UTF-8. -/
def demoBadTagValueEnc : Bytes :=
  demoStoreKey.encrypt_tag_value demoCipher demoHmac demoBad

/-! ### Helper lemmas -/

theorem AEADCipher.encrypt_length (C : AEADCipher) (k n p : Bytes) :
    (C.encrypt k n p).length = p.length + TAG_SIZE := by
  simp [AEADCipher.encrypt, C.body_length, C.tag_length]

theorem AEADCipher.decrypt_encrypt_full (C : AEADCipher) (k n p : Bytes) :
    C.decrypt k n (C.encrypt k n p) = some p :=
  C.decrypt_encrypt k n p

/-- Decrypting `nonce ++ encrypt` with the matching key and any
`NONCE_SIZE`-byte nonce recovers the plaintext. -/
theorem decrypt_nonce_encrypt (C : AEADCipher) (k nonce p : Bytes)
    (hn : nonce.length = NONCE_SIZE) :
    decrypt C k (nonce ++ C.encrypt k nonce p) = .ok p := by
  have henc : (C.encrypt k nonce p).length = p.length + TAG_SIZE :=
    C.encrypt_length k nonce p
  have hlen : (nonce ++ C.encrypt k nonce p).length =
      NONCE_SIZE + (p.length + TAG_SIZE) := by
    simp [List.length_append, hn, henc]
  have htake : (nonce ++ C.encrypt k nonce p).take NONCE_SIZE = nonce :=
    List.take_left' hn
  have hdrop : (nonce ++ C.encrypt k nonce p).drop NONCE_SIZE =
      C.encrypt k nonce p :=
    List.drop_left' hn
  have hge : ¬ (nonce ++ C.encrypt k nonce p).length < NONCE_SIZE + TAG_SIZE := by
    rw [hlen]; simp [NONCE_SIZE, TAG_SIZE]; omega
  rw [decrypt, if_neg hge, htake, hdrop, C.decrypt_encrypt_full]

theorem decrypt_encrypt_non_searchable (C : AEADCipher) (k nonce p : Bytes)
    (hn : nonce.length = NONCE_SIZE) :
    decrypt C k (encrypt_non_searchable C k nonce p) = .ok p :=
  decrypt_nonce_encrypt C k nonce p hn

theorem searchable_nonce_length (H : HmacSha256) (hmac_key input : Bytes) :
    ((H.mac hmac_key input).take NONCE_SIZE).length = NONCE_SIZE := by
  simp [List.length_take, H.mac_length, NONCE_SIZE]

theorem decrypt_encrypt_searchable (C : AEADCipher) (H : HmacSha256)
    (k hk p : Bytes) :
    decrypt C k (encrypt_searchable C H k hk p) = .ok p :=
  decrypt_nonce_encrypt C k ((H.mac hk p).take NONCE_SIZE) p
    (searchable_nonce_length H hk p)

theorem encrypt_non_searchable_length (C : AEADCipher) (k nonce p : Bytes)
    (hn : nonce.length = NONCE_SIZE) :
    (encrypt_non_searchable C k nonce p).length =
      p.length + NONCE_SIZE + TAG_SIZE := by
  simp [encrypt_non_searchable, List.length_append, hn, C.encrypt_length]
  omega

theorem encrypt_searchable_length (C : AEADCipher) (H : HmacSha256)
    (k hk p : Bytes) :
    (encrypt_searchable C H k hk p).length = p.length + NONCE_SIZE + TAG_SIZE := by
  have := searchable_nonce_length H hk p
  simp [encrypt_searchable, List.length_append, this, C.encrypt_length]
  omega

theorem decode_utf8_rstring (s : RString) : decode_utf8 s.val = .ok s := by
  simp [decode_utf8, s.prop]

/-- The wrapped-key segment of an encrypted value is exactly
`ENC_KEY_SIZE` bytes when the wrapped per-value key is 32 bytes. -/
theorem wrapped_key_length (C : AEADCipher) (k nonce vk : Bytes)
    (hvk : vk.length = 32) (hn : nonce.length = NONCE_SIZE) :
    (encrypt_non_searchable C k nonce vk).length = ENC_KEY_SIZE := by
  rw [encrypt_non_searchable_length C k nonce vk hn, hvk]
  simp [ENC_KEY_SIZE, ENC_KEY_BYTES, NONCE_SIZE, TAG_SIZE]

theorem decrypt_value_encrypt_value (C : AEADCipher) (key : StoreKey)
    (vk n1 n2 v : Bytes) (hvk : vk.length = 32)
    (h1 : n1.length = NONCE_SIZE) (h2 : n2.length = NONCE_SIZE) :
    key.decrypt_value C (key.encrypt_value C vk n1 n2 v) = .ok v := by
  rw [StoreKey.encrypt_value, StoreKey.decrypt_value]
  have hseg1 : (encrypt_non_searchable C key.value_key n1 vk).length =
      ENC_KEY_SIZE :=
    wrapped_key_length C key.value_key n1 vk hvk h1
  have hseg2 : (encrypt_non_searchable C vk n2 v).length =
      v.length + NONCE_SIZE + TAG_SIZE :=
    encrypt_non_searchable_length C vk n2 v h2
  have hlen : (encrypt_non_searchable C key.value_key n1 vk ++
      encrypt_non_searchable C vk n2 v).length =
      ENC_KEY_SIZE + (v.length + NONCE_SIZE + TAG_SIZE) := by
    rw [List.length_append, hseg1, hseg2]
  have hge : ¬ (encrypt_non_searchable C key.value_key n1 vk ++
      encrypt_non_searchable C vk n2 v).length < ENC_KEY_SIZE + TAG_SIZE := by
    rw [hlen]; simp [NONCE_SIZE, TAG_SIZE]
  rw [if_neg hge, List.take_left' hseg1, List.drop_left' hseg1,
    decrypt_encrypt_non_searchable C key.value_key n1 vk h1]
  exact decrypt_encrypt_non_searchable C vk n2 v h2

theorem decrypt_entry_tags_encrypt_entry_tags (C : AEADCipher) (H : HmacSha256)
    (key : StoreKey) (tags : List EntryTag) :
    key.decrypt_entry_tags C (key.encrypt_entry_tags C H tags) = .ok tags := by
  induction tags with
  | nil => rfl
  | cons t rest ih =>
    simp only [StoreKey.encrypt_entry_tags, StoreKey.encrypt_tag_name,
      StoreKey.encrypt_tag_value] at ih ⊢
    cases t with
    | Plaintext name value =>
      simp [StoreKey.decrypt_entry_tags, StoreKey.decrypt_tag_name,
        decrypt_encrypt_searchable, decode_utf8_rstring, ih]
    | Encrypted name value =>
      simp [StoreKey.decrypt_entry_tags, StoreKey.decrypt_tag_name,
        StoreKey.decrypt_tag_value,
        decrypt_encrypt_searchable, decode_utf8_rstring, ih]

/-! ### Claim theorems -/

/-- C1: for every record (category, name, value, tag list with both
variants) and every key bundle, decrypting each encrypted field with the
same bundle recovers the original record exactly.  The per-value key is
32 bytes and the random nonces have the cipher's nonce length, as
produced by `ArrayKey::random` / `random_array` in the source. -/
theorem C1_entry_round_trip (C : AEADCipher) (H : HmacSha256) (key : StoreKey)
    (category name : RString) (value vk n1 n2 : Bytes) (tags : List EntryTag)
    (hvk : vk.length = 32) (h1 : n1.length = NONCE_SIZE)
    (h2 : n2.length = NONCE_SIZE) :
    key.decrypt_entry_category C (key.encrypt_entry_category C H category) =
      .ok category ∧
    key.decrypt_entry_name C (key.encrypt_entry_name C H name) = .ok name ∧
    key.decrypt_entry_value C (key.encrypt_entry_value C vk n1 n2 value) =
      .ok value ∧
    key.decrypt_entry_tags C (key.encrypt_entry_tags C H tags) = .ok tags := by
  refine ⟨?_, ?_, ?_, ?_⟩
  · simp [StoreKey.decrypt_entry_category, StoreKey.decrypt_category,
      StoreKey.encrypt_entry_category, StoreKey.encrypt_category,
      decrypt_encrypt_searchable, decode_utf8_rstring]
  · simp [StoreKey.decrypt_entry_name, StoreKey.decrypt_name,
      StoreKey.encrypt_entry_name, StoreKey.encrypt_name,
      decrypt_encrypt_searchable, decode_utf8_rstring]
  · exact decrypt_value_encrypt_value C key vk n1 n2 value hvk h1 h2
  · exact decrypt_entry_tags_encrypt_entry_tags C H key tags

theorem C1_witness :
    demoValueKey.length = 32 ∧ demoKeyNonce.length = NONCE_SIZE ∧
    demoValueNonce.length = NONCE_SIZE ∧
    (demoStoreKey.decrypt_entry_category demoCipher
        (demoStoreKey.encrypt_entry_category demoCipher demoHmac demoCat) =
      .ok demoCat ∧
    demoStoreKey.decrypt_entry_name demoCipher
        (demoStoreKey.encrypt_entry_name demoCipher demoHmac demoName) =
      .ok demoName ∧
    demoStoreKey.decrypt_entry_value demoCipher
        (demoStoreKey.encrypt_entry_value demoCipher demoValueKey demoKeyNonce
          demoValueNonce demoValue) = .ok demoValue ∧
    demoStoreKey.decrypt_entry_tags demoCipher
        (demoStoreKey.encrypt_entry_tags demoCipher demoHmac demoTagList) =
      .ok demoTagList) :=
  ⟨by decide, by decide, by decide,
    C1_entry_round_trip demoCipher demoHmac demoStoreKey demoCat demoName
      demoValue demoValueKey demoKeyNonce demoValueNonce demoTagList
      (by decide) (by decide) (by decide)⟩

/-- C2 (counterexample): the claimed envelope length
`ENC_KEY_SIZE + len(x) + TAG_SIZE` fails on a concrete 5-byte value: the
output is 93 bytes (`ENC_KEY_SIZE + NONCE_SIZE + 5 + TAG_SIZE`), not the
claimed 81, because the wrapped value also carries its own nonce. -/
theorem C2_cex_envelope_length :
    (demoStoreKey.encrypt_value demoCipher demoValueKey demoKeyNonce
        demoValueNonce demoValue).length ≠
      ENC_KEY_SIZE + demoValue.length + TAG_SIZE := by
  decide

/-- C2 (amended): the output of `encrypt_value` has length exactly
`ENC_KEY_SIZE + NONCE_SIZE + len(x) + TAG_SIZE` — the wrapped key
(`ENC_KEY_SIZE` bytes, with `ENC_KEY_SIZE = NONCE_SIZE + ENC_KEY_BYTES +
TAG_SIZE`) followed by the wrapped value `nonce || ciphertext || tag`. -/
theorem C2_encrypt_value_length (C : AEADCipher) (key : StoreKey)
    (vk n1 n2 x : Bytes) (hvk : vk.length = ENC_KEY_BYTES)
    (h1 : n1.length = NONCE_SIZE) (h2 : n2.length = NONCE_SIZE) :
    (key.encrypt_value C vk n1 n2 x).length =
      ENC_KEY_SIZE + NONCE_SIZE + x.length + TAG_SIZE ∧
    ENC_KEY_SIZE = NONCE_SIZE + ENC_KEY_BYTES + TAG_SIZE := by
  refine ⟨?_, rfl⟩
  have hvk32 : vk.length = 32 := by simpa [ENC_KEY_BYTES] using hvk
  rw [StoreKey.encrypt_value, List.length_append,
    wrapped_key_length C key.value_key n1 vk hvk32 h1,
    encrypt_non_searchable_length C vk n2 x h2]
  omega

theorem C2_witness :
    demoValueKey.length = ENC_KEY_BYTES ∧ demoKeyNonce.length = NONCE_SIZE ∧
    demoValueNonce.length = NONCE_SIZE ∧
    ((demoStoreKey.encrypt_value demoCipher demoValueKey demoKeyNonce
        demoValueNonce demoValue).length =
      ENC_KEY_SIZE + NONCE_SIZE + demoValue.length + TAG_SIZE ∧
    ENC_KEY_SIZE = NONCE_SIZE + ENC_KEY_BYTES + TAG_SIZE) :=
  ⟨by decide, by decide, by decide,
    C2_encrypt_value_length demoCipher demoStoreKey demoValueKey demoKeyNonce
      demoValueNonce demoValue (by decide) (by decide) (by decide)⟩

/-- C3: `decrypt_value` fails with the length error on every input
shorter than `ENC_KEY_SIZE + TAG_SIZE` bytes; on longer inputs it splits
at offset `ENC_KEY_SIZE`, recovers the per-value key by decrypting the
first segment with `value_key`, and decrypts the remainder with the
recovered key. -/
theorem C3_decrypt_value_spec (C : AEADCipher) (key : StoreKey) (e : Bytes) :
    (e.length < ENC_KEY_SIZE + TAG_SIZE →
      key.decrypt_value C e =
        .error ⟨.Encryption,
          "Buffer is too short to represent an encrypted value"⟩) ∧
    (ENC_KEY_SIZE + TAG_SIZE ≤ e.length →
      key.decrypt_value C e =
        match decrypt C key.value_key (e.take ENC_KEY_SIZE) with
        | .error err => .error err
        | .ok vk => decrypt C vk (e.drop ENC_KEY_SIZE)) := by
  constructor
  · intro h
    rw [StoreKey.decrypt_value, if_pos h]
  · intro h
    rw [StoreKey.decrypt_value, if_neg (by omega)]

theorem C3_witness :
    (([] : Bytes).length < ENC_KEY_SIZE + TAG_SIZE ∧
      demoStoreKey.decrypt_value demoCipher [] =
        .error ⟨.Encryption,
          "Buffer is too short to represent an encrypted value"⟩) ∧
    (ENC_KEY_SIZE + TAG_SIZE ≤ demoInput76.length ∧
      demoStoreKey.decrypt_value demoCipher demoInput76 =
        match decrypt demoCipher demoStoreKey.value_key
            (demoInput76.take ENC_KEY_SIZE) with
        | .error err => .error err
        | .ok vk => decrypt demoCipher vk (demoInput76.drop ENC_KEY_SIZE)) :=
  ⟨⟨by decide, (C3_decrypt_value_spec demoCipher demoStoreKey []).1 (by decide)⟩,
   ⟨by decide,
    (C3_decrypt_value_spec demoCipher demoStoreKey demoInput76).2 (by decide)⟩⟩

/-- C4: the shared `decrypt` routine returns the length error on every
input shorter than `NONCE_SIZE + TAG_SIZE` bytes (it is a total function,
so it never panics); on inputs of sufficient length it splits off the
nonce prefix and AEAD-decrypts the remainder, returning an error exactly
when the cipher's tag verification fails. -/
theorem C4_decrypt_spec (C : AEADCipher) (k input : Bytes) :
    (input.length < NONCE_SIZE + TAG_SIZE →
      decrypt C k input =
        .error ⟨.Encryption, "Invalid length for encrypted buffer"⟩) ∧
    (NONCE_SIZE + TAG_SIZE ≤ input.length →
      (∀ p, C.decrypt k (input.take NONCE_SIZE) (input.drop NONCE_SIZE) =
          some p → decrypt C k input = .ok p) ∧
      (C.decrypt k (input.take NONCE_SIZE) (input.drop NONCE_SIZE) = none →
        decrypt C k input =
          .error ⟨.Encryption, "Error decrypting record"⟩)) := by
  constructor
  · intro h
    rw [decrypt, if_pos h]
  · intro h
    constructor
    · intro p hp
      rw [decrypt, if_neg (by omega), hp]
    · intro hn
      rw [decrypt, if_neg (by omega), hn]

theorem C4_witness :
    (([] : Bytes).length < NONCE_SIZE + TAG_SIZE ∧
      decrypt demoCipher demoStoreKey.name_key [] =
        .error ⟨.Encryption, "Invalid length for encrypted buffer"⟩) ∧
    (NONCE_SIZE + TAG_SIZE ≤ demoInput28.length ∧
      demoCipher.decrypt demoStoreKey.name_key (demoInput28.take NONCE_SIZE)
        (demoInput28.drop NONCE_SIZE) = none ∧
      decrypt demoCipher demoStoreKey.name_key demoInput28 =
        .error ⟨.Encryption, "Error decrypting record"⟩) :=
  ⟨⟨by decide,
    (C4_decrypt_spec demoCipher demoStoreKey.name_key []).1 (by decide)⟩,
   ⟨by decide, by decide,
    ((C4_decrypt_spec demoCipher demoStoreKey.name_key demoInput28).2
        (by decide)).2 (by decide)⟩⟩

/-- C5: `encrypt_searchable` is deterministic — it is a pure function of
`(enc_key, mac_key, plaintext)` (the embedding needs no randomness
parameter, unlike `encrypt_non_searchable`), two calls on identical
inputs are identical, and the nonce is `HMAC-SHA256(mac_key, plaintext)`
truncated to the cipher's nonce length (it is the `NONCE_SIZE`-byte
prefix of the output). -/
theorem C5_encrypt_searchable_deterministic (C : AEADCipher) (H : HmacSha256)
    (enc_key mac_key x : Bytes) :
    encrypt_searchable C H enc_key mac_key x =
      encrypt_searchable C H enc_key mac_key x ∧
    encrypt_searchable C H enc_key mac_key x =
      (H.mac mac_key x).take NONCE_SIZE ++
        C.encrypt enc_key ((H.mac mac_key x).take NONCE_SIZE) x ∧
    (encrypt_searchable C H enc_key mac_key x).take NONCE_SIZE =
      (H.mac mac_key x).take NONCE_SIZE := by
  refine ⟨rfl, rfl, ?_⟩
  exact List.take_left' (searchable_nonce_length H mac_key x)

/-- C6: the outputs of `encrypt_non_searchable` and `encrypt_searchable`
have length exactly `len(x) + NONCE_SIZE + TAG_SIZE` and are laid out as
`nonce (NONCE_SIZE bytes) || encrypted payload (len(x) bytes) || tag
(TAG_SIZE bytes)`. -/
theorem C6_encrypt_layout (C : AEADCipher) (H : HmacSha256)
    (k hk nonce x : Bytes) (hn : nonce.length = NONCE_SIZE) :
    (encrypt_non_searchable C k nonce x).length =
      x.length + NONCE_SIZE + TAG_SIZE ∧
    encrypt_non_searchable C k nonce x =
      nonce ++ (C.encBody k nonce x ++ C.tagOf k nonce x) ∧
    (C.encBody k nonce x).length = x.length ∧
    (C.tagOf k nonce x).length = TAG_SIZE ∧
    (encrypt_searchable C H k hk x).length = x.length + NONCE_SIZE + TAG_SIZE ∧
    encrypt_searchable C H k hk x =
      (H.mac hk x).take NONCE_SIZE ++
        (C.encBody k ((H.mac hk x).take NONCE_SIZE) x ++
          C.tagOf k ((H.mac hk x).take NONCE_SIZE) x) ∧
    ((H.mac hk x).take NONCE_SIZE).length = NONCE_SIZE :=
  ⟨encrypt_non_searchable_length C k nonce x hn, rfl,
   C.body_length k nonce x, C.tag_length k nonce x,
   encrypt_searchable_length C H k hk x, rfl,
   searchable_nonce_length H hk x⟩

theorem C6_witness :
    demoKeyNonce.length = NONCE_SIZE ∧
    ((encrypt_non_searchable demoCipher demoStoreKey.value_key demoKeyNonce
        demoValue).length = demoValue.length + NONCE_SIZE + TAG_SIZE ∧
    encrypt_non_searchable demoCipher demoStoreKey.value_key demoKeyNonce
        demoValue =
      demoKeyNonce ++
        (demoCipher.encBody demoStoreKey.value_key demoKeyNonce demoValue ++
          demoCipher.tagOf demoStoreKey.value_key demoKeyNonce demoValue) ∧
    (demoCipher.encBody demoStoreKey.value_key demoKeyNonce demoValue).length =
      demoValue.length ∧
    (demoCipher.tagOf demoStoreKey.value_key demoKeyNonce demoValue).length =
      TAG_SIZE ∧
    (encrypt_searchable demoCipher demoHmac demoStoreKey.value_key
        demoStoreKey.item_hmac_key demoValue).length =
      demoValue.length + NONCE_SIZE + TAG_SIZE ∧
    encrypt_searchable demoCipher demoHmac demoStoreKey.value_key
        demoStoreKey.item_hmac_key demoValue =
      (demoHmac.mac demoStoreKey.item_hmac_key demoValue).take NONCE_SIZE ++
        (demoCipher.encBody demoStoreKey.value_key
            ((demoHmac.mac demoStoreKey.item_hmac_key demoValue).take
              NONCE_SIZE) demoValue ++
          demoCipher.tagOf demoStoreKey.value_key
            ((demoHmac.mac demoStoreKey.item_hmac_key demoValue).take
              NONCE_SIZE) demoValue) ∧
    ((demoHmac.mac demoStoreKey.item_hmac_key demoValue).take
        NONCE_SIZE).length = NONCE_SIZE) :=
  ⟨by decide,
    C6_encrypt_layout demoCipher demoHmac demoStoreKey.value_key
      demoStoreKey.item_hmac_key demoKeyNonce demoValue (by decide)⟩

/-- C7: `encrypt_entry_tags` maps each tagged-union entry to an
`EncEntryTag` whose `plaintext` discriminator records the variant; the
tag name is encrypted searchably under `tag_name_key`/`tags_hmac_key` in
both variants, a `Plaintext` value is stored as its raw UTF-8 bytes, and
an `Encrypted` value is encrypted under `tag_value_key`/`tags_hmac_key`. -/
theorem C7_encrypt_entry_tags_shape (C : AEADCipher) (H : HmacSha256)
    (key : StoreKey) (tags : List EntryTag) :
    key.encrypt_entry_tags C H tags = tags.map fun tag =>
      match tag with
      | .Plaintext name value =>
        { name := encrypt_searchable C H key.tag_name_key key.tags_hmac_key
            name.val
          value := value.val
          plaintext := true }
      | .Encrypted name value =>
        { name := encrypt_searchable C H key.tag_name_key key.tags_hmac_key
            name.val
          value := encrypt_searchable C H key.tag_value_key key.tags_hmac_key
            value.val
          plaintext := false } := rfl

theorem decode_utf8_invalid (bs : Bytes) (h : utf8Valid bs = false) :
    decode_utf8 bs = .error ⟨.Encryption, "invalid utf-8 sequence"⟩ := by
  simp [decode_utf8, h]

theorem decode_utf8_error_kind (bs : Bytes) (e : Err)
    (h : decode_utf8 bs = .error e) : e.kind = .Encryption := by
  rw [decode_utf8] at h
  split at h
  · exact Except.noConfusion h
  · injection h with h1
    rw [← h1]

theorem decrypt_error_kind (C : AEADCipher) (k input : Bytes) (e : Err)
    (h : decrypt C k input = .error e) : e.kind = .Encryption := by
  rw [decrypt] at h
  split at h
  · injection h with h1
    rw [← h1]
  · split at h
    · exact Except.noConfusion h
    · injection h with h1
      rw [← h1]

/-- C8: whenever the decrypted bytes of a text field (category, name,
tag name, tag value) are not valid UTF-8, the operation fails with an
error of kind `Encryption` — the very same error kind carried by every
failure of the shared `decrypt` routine (authentication and length
errors), not a distinct kind. -/
theorem C8_utf8_error_class (C : AEADCipher) (key : StoreKey)
    (k input enc bs nm tv : Bytes) :
    (utf8Valid bs = false →
      decode_utf8 bs = .error ⟨.Encryption, "invalid utf-8 sequence"⟩) ∧
    (∀ e, decode_utf8 bs = .error e → e.kind = .Encryption) ∧
    (∀ e, decrypt C k input = .error e → e.kind = .Encryption) ∧
    (key.decrypt_category C enc = .ok bs → utf8Valid bs = false →
      key.decrypt_entry_category C enc =
        .error ⟨.Encryption, "invalid utf-8 sequence"⟩) ∧
    (key.decrypt_name C enc = .ok bs → utf8Valid bs = false →
      key.decrypt_entry_name C enc =
        .error ⟨.Encryption, "invalid utf-8 sequence"⟩) ∧
    (∀ name : RString, key.decrypt_tag_name C nm = .ok name.val →
      utf8Valid bs = false →
      key.decrypt_entry_tags C [⟨nm, bs, true⟩] =
        .error ⟨.Encryption, "invalid utf-8 sequence"⟩) ∧
    (∀ name : RString, key.decrypt_tag_name C nm = .ok name.val →
      key.decrypt_tag_value C tv = .ok bs → utf8Valid bs = false →
      key.decrypt_entry_tags C [⟨nm, tv, false⟩] =
        .error ⟨.Encryption, "invalid utf-8 sequence"⟩) := by
  refine ⟨decode_utf8_invalid bs, decode_utf8_error_kind bs,
    decrypt_error_kind C k input, ?_, ?_, ?_, ?_⟩
  · intro hdec hbad
    rw [StoreKey.decrypt_entry_category, hdec]
    show decode_utf8 bs = _
    exact decode_utf8_invalid bs hbad
  · intro hdec hbad
    rw [StoreKey.decrypt_entry_name, hdec]
    show decode_utf8 bs = _
    exact decode_utf8_invalid bs hbad
  · intro name hnm hbad
    simp [StoreKey.decrypt_entry_tags, hnm, decode_utf8_rstring,
      decode_utf8_invalid bs hbad]
  · intro name hnm htv hbad
    simp [StoreKey.decrypt_entry_tags, hnm, htv, decode_utf8_rstring,
      decode_utf8_invalid bs hbad]

theorem C8_witness :
    (utf8Valid demoBad = false ∧
      decode_utf8 demoBad = .error ⟨.Encryption, "invalid utf-8 sequence"⟩) ∧
    (demoStoreKey.decrypt_category demoCipher demoBadCatEnc = .ok demoBad ∧
      demoStoreKey.decrypt_entry_category demoCipher demoBadCatEnc =
        .error ⟨.Encryption, "invalid utf-8 sequence"⟩) ∧
    (demoStoreKey.decrypt_tag_name demoCipher demoGoodTagNameEnc =
        .ok demoName.val ∧
      demoStoreKey.decrypt_tag_value demoCipher demoBadTagValueEnc =
        .ok demoBad ∧
      demoStoreKey.decrypt_entry_tags demoCipher
          [⟨demoGoodTagNameEnc, demoBadTagValueEnc, false⟩] =
        .error ⟨.Encryption, "invalid utf-8 sequence"⟩) :=
  ⟨⟨by decide,
    (C8_utf8_error_class demoCipher demoStoreKey [] [] demoBadCatEnc demoBad
      demoGoodTagNameEnc demoBadTagValueEnc).1 (by decide)⟩,
   ⟨by rfl,
    (C8_utf8_error_class demoCipher demoStoreKey [] [] demoBadCatEnc demoBad
      demoGoodTagNameEnc demoBadTagValueEnc).2.2.2.1 (by rfl) (by decide)⟩,
   ⟨by rfl, by rfl,
    (C8_utf8_error_class demoCipher demoStoreKey [] [] demoBadCatEnc demoBad
      demoGoodTagNameEnc demoBadTagValueEnc).2.2.2.2.2.2 demoName (by rfl)
      (by rfl) (by decide)⟩⟩

theorem from_text_error_shape (fields : List (String × Bytes)) (e : Err)
    (h : StoreKey.from_text fields = .error e) :
    e = ⟨.Unsupported, "Invalid store key"⟩ := by
  rw [StoreKey.from_text.eq_def] at h
  split at h
  · split at h
    · exact Except.noConfusion h
    · injection h with h1
      exact h1.symm
  · injection h with h1
    exact h1.symm

/-- C9: parsing the textual serialization of a key bundle yields the
same bundle, byte-for-byte in all seven keys, and parsing malformed
input fails with a format error (`Unsupported`) distinct from the
cryptographic (`Encryption`) failures. -/
theorem C9_bundle_serialization (key : StoreKey)
    (fields : List (String × Bytes)) (hwf : key.wf) :
    StoreKey.from_text (StoreKey.to_text key) = .ok key ∧
    (∀ e, StoreKey.from_text fields = .error e →
      e.kind = .Unsupported ∧ e.kind ≠ .Encryption) := by
  constructor
  · obtain ⟨h1, h2, h3, h4, h5, h6, h7⟩ := hwf
    simp [StoreKey.to_text, StoreKey.from_text, h1, h2, h3, h4, h5, h6, h7]
  · intro e he
    rw [from_text_error_shape fields e he]
    exact ⟨rfl, by decide⟩

theorem C9_witness :
    demoStoreKey.wf ∧
    StoreKey.from_text (StoreKey.to_text demoStoreKey) = .ok demoStoreKey ∧
    ((⟨.Unsupported, "Invalid store key"⟩ : Err).kind = .Unsupported ∧
      (⟨.Unsupported, "Invalid store key"⟩ : Err).kind ≠ .Encryption) :=
  ⟨by decide,
   (C9_bundle_serialization demoStoreKey [] (by decide)).1,
   (C9_bundle_serialization demoStoreKey [] (by decide)).2
     ⟨.Unsupported, "Invalid store key"⟩ rfl⟩

/-- C10: `decrypt_value` is total (a function defined on every input
length), and on inputs that pass the outer `ENC_KEY_SIZE + TAG_SIZE`
length check but whose remainder after offset `ENC_KEY_SIZE` is shorter
than `NONCE_SIZE + TAG_SIZE`, it still returns an error — raised either
by the wrapped-key decryption or by the inner `decrypt` length guard —
rather than crashing. -/
theorem C10_decrypt_value_total (C : AEADCipher) (key : StoreKey) (e : Bytes)
    (h1 : ENC_KEY_SIZE + TAG_SIZE ≤ e.length)
    (h2 : e.length < ENC_KEY_SIZE + NONCE_SIZE + TAG_SIZE) :
    (∀ x : Bytes, ∃ r : Except Err Bytes, key.decrypt_value C x = r) ∧
    ∃ err, key.decrypt_value C e = .error err := by
  refine ⟨fun x => ⟨_, rfl⟩, ?_⟩
  rw [StoreKey.decrypt_value, if_neg (by omega)]
  cases hdk : decrypt C key.value_key (e.take ENC_KEY_SIZE) with
  | error err => exact ⟨err, rfl⟩
  | ok vk =>
    have hlt : (e.drop ENC_KEY_SIZE).length < NONCE_SIZE + TAG_SIZE := by
      rw [List.length_drop]
      omega
    show ∃ err, decrypt C vk (e.drop ENC_KEY_SIZE) = .error err
    rw [decrypt, if_pos hlt]
    exact ⟨_, rfl⟩

theorem C10_witness :
    ENC_KEY_SIZE + TAG_SIZE ≤ demoInput76.length ∧
    demoInput76.length < ENC_KEY_SIZE + NONCE_SIZE + TAG_SIZE ∧
    ((∀ x : Bytes, ∃ r : Except Err Bytes,
        demoStoreKey.decrypt_value demoCipher x = r) ∧
      ∃ err, demoStoreKey.decrypt_value demoCipher demoInput76 = .error err) :=
  ⟨by decide, by decide,
   C10_decrypt_value_total demoCipher demoStoreKey demoInput76 (by decide)
     (by decide)⟩

end AskarStore
